import Mathlib

/-!
# Verification of the YouTube caption service (src/main.py)

A shallow embedding of the request-validation, transcript-transformation and
error-classification logic of `src/main.py`, together with theorems settling
the frozen claims about that code.

Strings are modelled as `List Char`; the float arithmetic on segment start
offsets and durations is modelled exactly over `ℚ`.  The external transcript
collaborator is a black box: its outcome is passed to the handler as a value
of type `FetchResult` (either a list of snippets plus a language code, or a
failure carrying a message), mirroring lines 96-124 of `src/main.py` where
`api.fetch` either returns a `FetchedTranscript` or raises.
-/

namespace YTCap

/-! ## Character classes -/

/-- The alphabet `[a-zA-Z0-9_-]` of the video-id patterns in
`validate_video_id` (src/main.py lines 36, 40, 45). -/
def isIdChar (c : Char) : Bool :=
  ('a' ≤ c && c ≤ 'z') || ('A' ≤ c && c ≤ 'Z') || ('0' ≤ c && c ≤ '9')
    || c == '_' || c == '-'

/-- The character class of the regex `\s` (and of `str.strip`) for Python
`str` patterns: ASCII whitespace plus the Unicode whitespace characters.
Used by line 142 of src/main.py, `re.sub(r'\s+', ' ', ...).strip()`. -/
def isWsChar (c : Char) : Bool :=
  (9 ≤ c.toNat && c.toNat ≤ 13) || (28 ≤ c.toNat && c.toNat ≤ 31)
    || c.toNat == 32 || c.toNat == 133 || c.toNat == 160 || c.toNat == 0x1680
    || (0x2000 ≤ c.toNat && c.toNat ≤ 0x200a) || c.toNat == 0x2028
    || c.toNat == 0x2029 || c.toNat == 0x202f || c.toNat == 0x205f
    || c.toNat == 0x3000

/-- ASCII lowering, the effect of `str.lower` (src/main.py line 160) on the
ASCII range. -/
def lowerChar (c : Char) : Char :=
  if 'A' ≤ c && c ≤ 'Z' then Char.ofNat (c.toNat + 32) else c

/-- `str.lower` applied to a whole string. -/
def lowerStr (s : List Char) : List Char := s.map lowerChar

/-! ## Substring search (Python `in` and `re.search`) -/

/-- `p` is a prefix of `s`. -/
def isPrefixL : List Char → List Char → Bool
  | [], _ => true
  | _ :: _, [] => false
  | p :: ps, c :: cs => p == c && isPrefixL ps cs

/-- Python substring containment `pat in s`. -/
def containsSub : List Char → List Char → Bool
  | [], pat => pat.isEmpty
  | c :: t, pat => isPrefixL pat (c :: t) || containsSub t pat

/-- `re.search` for a pattern of the shape `LITERAL([a-zA-Z0-9_-]+)`
(src/main.py lines 36 and 40): at the leftmost position where the literal
`pat` is followed by at least one id character, return the maximal run of id
characters after the literal (the captured group); `none` when no position
matches. -/
def searchCapture (pat : List Char) : List Char → Option (List Char)
  | [] => none
  | c :: t =>
    if isPrefixL pat (c :: t) && !(((c :: t).drop pat.length).takeWhile isIdChar).isEmpty
    then some (((c :: t).drop pat.length).takeWhile isIdChar)
    else searchCapture pat t

/-! ## The identifier normalizer (src/main.py lines 31-48) -/

/-- The literal `youtube.com/watch?v=` tested on line 35. -/
def urlWatchLit : List Char := "youtube.com/watch?v=".data

/-- The literal of the regex `v=([a-zA-Z0-9_-]+)` on line 36. -/
def patVLit : List Char := "v=".data

/-- The literal of both the test on line 39 and the regex
`youtu\.be/([a-zA-Z0-9_-]+)` on line 40. -/
def urlShortLit : List Char := "youtu.be/".data

/-- The validation failure message raised on line 46. -/
def invalidIdMsg : List Char := "Invalid YouTube video ID format".data

/-- The URL-extraction step of `validate_video_id` (src/main.py lines
34-42): if the input contains `youtube.com/watch?v=`, search for
`v=([a-zA-Z0-9_-]+)` and, when it matches, replace the working value with the
captured group; else if it contains `youtu.be/`, do the same with
`youtu\.be/([a-zA-Z0-9_-]+)`; otherwise keep the input. -/
def extract_id (v : List Char) : List Char :=
  if containsSub v urlWatchLit then
    match searchCapture patVLit v with
    | some g => g
    | none => v
  else if containsSub v urlShortLit then
    match searchCapture urlShortLit v with
    | some g => g
    | none => v
  else v

/-- Python `re.match(r'^[a-zA-Z0-9_-]{11}$', s)` converted to a Boolean
(src/main.py line 45).  `re.match` anchors at the start, and `$` matches at
the end of the string or just before a newline at the end of the string, so
the pattern accepts exactly: eleven id characters, or eleven id characters
followed by a single trailing newline. -/
def matchId11 (s : List Char) : Bool :=
  (s.take 11).all isIdChar &&
    (s.length == 11 || (s.length == 12 && s.getLast? == some '\n'))

/-- The outcome of the field validator: the accepted working value, or the
message of the raised `ValueError`. -/
inductive ValidateResult where
  | ok (v : List Char)
  | invalid (msg : List Char)
deriving DecidableEq, Repr

/-- The field validator `validate_video_id` (src/main.py lines 31-48):
URL extraction, then the format check of line 45; on failure the
`ValueError` message of line 46, on success the (possibly replaced) working
value. -/
def validate_video_id (v : List Char) : ValidateResult :=
  if matchId11 (extract_id v) then ValidateResult.ok (extract_id v)
  else ValidateResult.invalid invalidIdMsg

/-! ## Transcript segments and the success transformation -/

/-- One transcript snippet as extracted on src/main.py lines 105-110: text,
start offset and duration.  The float fields are modelled over `ℚ`. -/
structure Segment where
  text : List Char
  start : ℚ
  duration : ℚ
deriving DecidableEq, Repr

/-- `" ".join(text_segments)` (src/main.py line 139). -/
def joinSpace : List (List Char) → List Char
  | [] => []
  | [t] => t
  | t :: ts => t ++ ' ' :: joinSpace ts

/-- Worker for `re.sub(r'\s+', ' ', s)`: the flag records whether the
previous character belonged to a whitespace run already replaced. -/
def collapseWsAux : Bool → List Char → List Char
  | _, [] => []
  | inRun, c :: t =>
    if isWsChar c then
      if inRun then collapseWsAux true t else ' ' :: collapseWsAux true t
    else c :: collapseWsAux false t

/-- `re.sub(r'\s+', ' ', s)` (src/main.py line 142): every maximal run of
whitespace becomes a single space. -/
def collapseWs (s : List Char) : List Char := collapseWsAux false s

/-- `str.strip()` (src/main.py line 142): drop leading and trailing
whitespace. -/
def stripWs (s : List Char) : List Char :=
  ((s.dropWhile isWsChar).reverse.dropWhile isWsChar).reverse

/-- The right half of `str.strip`: drop trailing whitespace only. -/
def rstripWs (s : List Char) : List Char :=
  (s.reverse.dropWhile isWsChar).reverse

/-- Modelled from the spec: the maximal whitespace-free words of a string,
in order.  Spec section 4.2 steps 3-4 describe the cleaned captions as the
texts joined by single spaces with every whitespace run collapsed to one
space and the ends trimmed; that cleaned string is exactly the single-space
join of these words. -/
def splitWords (s : List Char) : List (List Char) :=
  match _hdrop : s.dropWhile isWsChar with
  | [] => []
  | c :: t =>
      (c :: t.takeWhile (fun x => !isWsChar x)) ::
        splitWords (t.dropWhile (fun x => !isWsChar x))
termination_by s.length
decreasing_by
  simp_wf
  have h1 : (s.dropWhile isWsChar).length ≤ s.length := (List.dropWhile_sublist _).length_le
  rw [_hdrop] at h1
  have h2 : (t.dropWhile fun x => !isWsChar x).length ≤ t.length :=
    (List.dropWhile_sublist _).length_le
  simp only [List.length_cons] at h1
  omega

/-- The captions text built on src/main.py lines 127-142: the segment texts
joined with a single space, whitespace runs collapsed, then stripped. -/
def captionsText (segs : List Segment) : List Char :=
  stripWs (collapseWs (joinSpace (segs.map Segment.text)))

/-- The end time of a segment, `segment["start"] + segment["duration"]`
(src/main.py line 134). -/
def segEnd (s : Segment) : ℚ := s.start + s.duration

/-- The `total_duration` accumulation of src/main.py lines 128-136: starting
from `0.0`, replace the accumulator by a segment end whenever the end is
strictly larger. -/
def totalDuration (segs : List Segment) : ℚ :=
  segs.foldl (fun acc s => if acc < segEnd s then segEnd s else acc) 0

/-- Modelled from the spec: the maximum of (start + duration) over all
segments, `0.0` for the empty sequence (spec section 4.2 step 3). -/
def maxSegmentEnd (segs : List Segment) : ℚ :=
  match segs with
  | [] => 0
  | s :: rest => (rest.map segEnd).foldl max (segEnd s)

/-! ## Response and error shapes -/

/-- The `CaptionResponse` model (src/main.py lines 50-54). -/
structure CaptionResponse where
  video_id : List Char
  captions : List Char
  language : List Char
  total_duration : ℚ
deriving DecidableEq, Repr

/-- The error payload placed in `HTTPException.detail` (src/main.py lines
119-123 and 180-184). -/
structure ErrorDetail where
  error : List Char
  error_code : List Char
  video_id : List Char
deriving DecidableEq, Repr

/-- The outcome of the `get_captions` handler: a 200 with a
`CaptionResponse`, or an `HTTPException` with a status code and detail. -/
inductive HandlerResult where
  | success (r : CaptionResponse)
  | httpError (status : Nat) (detail : ErrorDetail)
deriving DecidableEq, Repr

/-- The outcome of the external collaborator call `api.fetch(video_id)`
(src/main.py line 101): either snippets plus a language code, or a raised
failure carrying a message. -/
inductive FetchResult where
  | ok (snippets : List Segment) (language_code : List Char)
  | err (message : List Char)
deriving DecidableEq, Repr

/-- The HTTP status of a handler outcome, `none` on success. -/
def resultStatus : HandlerResult → Option Nat
  | .success _ => none
  | .httpError s _ => some s

/-- The error code of a handler outcome, `none` on success. -/
def resultErrorCode : HandlerResult → Option (List Char)
  | .success _ => none
  | .httpError _ d => some d.error_code

/-! ## The handler and the error classifier -/

/-- Message of src/main.py line 120. -/
def msgNoTranscript : List Char :=
  "No captions/transcripts available for this video".data

/-- Code of src/main.py line 121. -/
def codeNoTranscript : List Char := "NO_TRANSCRIPT_AVAILABLE".data

/-- Trigger literal of src/main.py line 161. -/
def litVideoUnavailable : List Char := "video unavailable".data

/-- Trigger literal of src/main.py line 161. -/
def litVideoDoesNotExist : List Char := "video does not exist".data

/-- Message of src/main.py line 163. -/
def msgVideoNotFound : List Char := "Video not found or is unavailable".data

/-- Code of src/main.py line 162. -/
def codeVideoNotFound : List Char := "VIDEO_NOT_FOUND".data

/-- Trigger literal of src/main.py line 165. -/
def litPrivate : List Char := "private".data

/-- Message of src/main.py line 167. -/
def msgVideoPrivate : List Char :=
  "Video is private and captions cannot be accessed".data

/-- Code of src/main.py line 166. -/
def codeVideoPrivate : List Char := "VIDEO_PRIVATE".data

/-- Trigger literal of src/main.py line 169. -/
def litDisabled : List Char := "disabled".data

/-- Message of src/main.py line 171. -/
def msgCaptionsDisabled : List Char := "Captions are disabled for this video".data

/-- Code of src/main.py line 170. -/
def codeCaptionsDisabled : List Char := "CAPTIONS_DISABLED".data

/-- The fixed part of the f-string on src/main.py line 175. -/
def msgProcessingPre : List Char := "Error processing video: ".data

/-- Code of src/main.py line 174. -/
def codeProcessing : List Char := "PROCESSING_ERROR".data

/-- The classification of src/main.py lines 156-185 (the generic `except`
branch of `get_captions`): lower the message, then test the trigger
substrings in priority order, building the `HTTPException` of lines
178-185.  The catch-all includes the original (unlowered) message after
`Error processing video: `. -/
def classify_error (video_id msg : List Char) : HandlerResult :=
  let m := lowerStr msg
  if containsSub m litVideoUnavailable || containsSub m litVideoDoesNotExist then
    HandlerResult.httpError 404 ⟨msgVideoNotFound, codeVideoNotFound, video_id⟩
  else if containsSub m litPrivate then
    HandlerResult.httpError 403 ⟨msgVideoPrivate, codeVideoPrivate, video_id⟩
  else if containsSub m litDisabled then
    HandlerResult.httpError 400 ⟨msgCaptionsDisabled, codeCaptionsDisabled, video_id⟩
  else
    HandlerResult.httpError 500
      ⟨msgProcessingPre ++ msg, codeProcessing, video_id⟩

/-- The `get_captions` handler body (src/main.py lines 84-185) applied to a
validated video id and the outcome of the collaborator call.  The inner
`try` of lines 96-124 turns every collaborator failure into the 404
`NO_TRANSCRIPT_AVAILABLE` `HTTPException`, which the outer handler re-raises
unchanged (line 153-155); on success, lines 126-151 build the
`CaptionResponse`.  In this model no step of lines 126-151 can fail, so the
generic `except` branch (`classify_error`) is not reached from here. -/
def get_captions (video_id : List Char) (fetch : FetchResult) : HandlerResult :=
  match fetch with
  | FetchResult.err _ =>
      HandlerResult.httpError 404 ⟨msgNoTranscript, codeNoTranscript, video_id⟩
  | FetchResult.ok snippets language =>
      HandlerResult.success
        ⟨video_id, captionsText snippets, language, totalDuration snippets⟩

/-! ## The two endpoints -/

/-- The observable outcome of one request to an endpoint, at the framework
boundary.  A failure of the `video_id` field validator surfaces at two
different places in src/main.py: for the POST endpoint the `VideoRequest`
body model is bound during request parsing, so the pydantic failure rejects
the request before the handler body runs (`requestValidationError`); for
the GET endpoint the model is constructed explicitly inside the handler
body on line 193, outside every try block, so the pydantic failure escapes
the handler uncaught (`unhandledException`). -/
inductive EndpointResult where
  | requestValidationError (msg : List Char)
  | unhandledException (msg : List Char)
  | handled (r : HandlerResult)
deriving DecidableEq, Repr

/-- Modelled from the spec and the hosting framework's documented defaults,
which are outside src/: the HTTP status a framework renders for each
endpoint outcome.  Spec section 7 names 422 as the framework-default status
for a request validation failure; an exception escaping a handler body is
rendered as an internal server error, status 500; a handler outcome keeps
its own status (200 on success). -/
def endpointStatus : EndpointResult → Nat
  | EndpointResult.requestValidationError _ => 422
  | EndpointResult.unhandledException _ => 500
  | EndpointResult.handled (HandlerResult.success _) => 200
  | EndpointResult.handled (HandlerResult.httpError s _) => s

/-- `POST /get-captions` (src/main.py lines 80-185): the JSON body is parsed
into a `VideoRequest`, running `validate_video_id` on the `video_id` field
during request parsing — a validation failure rejects the request before
the handler body runs; otherwise the handler runs on the validated id and
the collaborator outcome. -/
def post_get_captions (raw : List Char) (fetch : FetchResult) : EndpointResult :=
  match validate_video_id raw with
  | ValidateResult.invalid m => EndpointResult.requestValidationError m
  | ValidateResult.ok vid => EndpointResult.handled (get_captions vid fetch)

/-- `GET /video/{video_id}/captions` (src/main.py lines 187-194): the
handler body itself constructs `VideoRequest(video_id=video_id)` on line
193, outside every try block, so a failure of the same field validator is
raised inside the handler and escapes it uncaught; otherwise the same
handler is awaited on the validated id. -/
def get_captions_by_url (raw : List Char) (fetch : FetchResult) : EndpointResult :=
  match validate_video_id raw with
  | ValidateResult.invalid m => EndpointResult.unhandledException m
  | ValidateResult.ok vid => EndpointResult.handled (get_captions vid fetch)

/-! ## Concrete inputs used by the claims -/

/-- The canonical 11-character id of the spec examples. -/
def dqId : List Char := "dQw4w9WgXcQ".data

/-- The watch-URL example of spec section 8. -/
def watchUrlEx : List Char := "https://www.youtube.com/watch?v=dQw4w9WgXcQ".data

/-- The short-URL example of spec section 8. -/
def shortUrlEx : List Char := "https://youtu.be/dQw4w9WgXcQ".data

/-- The hello/world segment pair of spec section 8. -/
def exHelloSegs : List Segment :=
  [⟨"hello".data, 0, 1⟩, ⟨"world".data, 1, 2⟩]

/-- Segments carrying irregular whitespace split across segments
(spec section 8). -/
def exIrregularSegs : List Segment :=
  [⟨"hello\n\n".data, 0, 1⟩, ⟨"  world ".data, 1, 2⟩]

/-- The collaborator failure message of the spec section 8 example. -/
def msgVideoIsPrivate : List Char := "Video is private".data

/-- A failure message containing the trigger `not available` of spec section
4.2 step 6 and none of the other trigger substrings. -/
def msgNotAvailEx : List Char := "Transcripts not available".data

/-- A failure message containing `does not exist` but not `video does not
exist`, and none of the other trigger substrings. -/
def msgDoesNotExistEx : List Char := "this clip does not exist".data

/-- Eleven id characters followed by a single trailing newline. -/
def newlineIdInput : List Char := "abcdefghijk\n".data

/-- A segment list whose only segment ends before time zero. -/
def negSegs : List Segment := [⟨"x".data, -5, 1⟩]

/-! ## Theorems -/

/-- The update of src/main.py lines 134-136 is a binary maximum. -/
theorem step_eq_max (a e : ℚ) : (if a < e then e else a) = max a e := by
  rcases le_or_lt e a with h | h
  · rw [if_neg (not_lt.mpr h), max_eq_left h]
  · rw [if_pos h, max_eq_right (le_of_lt h)]

/-- The accumulation of `total_duration` folds the maximum of the segment
ends. -/
theorem totalDuration_foldl_max :
    ∀ (l : List Segment) (a : ℚ),
      l.foldl (fun acc s => if acc < segEnd s then segEnd s else acc) a =
        l.foldl (fun acc s => max acc (segEnd s)) a := by
  intro l
  induction l with
  | nil => intro a; rfl
  | cons s t ih =>
    intro a
    simp only [List.foldl_cons]
    rw [step_eq_max a (segEnd s)]
    exact ih _

/-- A maximum fold lets a component of its seed move outside. -/
theorem foldl_max_seed :
    ∀ (l : List Segment) (a b : ℚ),
      l.foldl (fun acc s => max acc (segEnd s)) (max a b) =
        max a (l.foldl (fun acc s => max acc (segEnd s)) b) := by
  intro l
  induction l with
  | nil => intro a b; rfl
  | cons s t ih =>
    intro a b
    simp only [List.foldl_cons]
    rw [max_assoc]
    exact ih a (max b (segEnd s))

/-- The seed bounds a maximum fold from below. -/
theorem le_foldl_max : ∀ (l : List ℚ) (b : ℚ), b ≤ l.foldl max b := by
  intro l
  induction l with
  | nil => intro b; exact le_refl b
  | cons x t ih =>
    intro b
    exact le_trans (le_max_left b x) (ih (max b x))

/-- The `total_duration` of src/main.py lines 127-136 is the maximum of the
segment ends clamped below by the initial value `0.0`. -/
theorem totalDuration_eq (segs : List Segment) :
    totalDuration segs = max 0 (maxSegmentEnd segs) := by
  cases segs with
  | nil => simp [totalDuration, maxSegmentEnd]
  | cons s rest =>
    rw [totalDuration, List.foldl_cons, step_eq_max, totalDuration_foldl_max,
      foldl_max_seed, maxSegmentEnd]
    rw [List.foldl_map]

/-- A maximum fold over strictly negative values from a strictly negative
seed stays strictly negative. -/
theorem foldl_max_neg :
    ∀ (l : List ℚ) (b : ℚ), b < 0 → (∀ x ∈ l, x < 0) → l.foldl max b < 0 := by
  intro l
  induction l with
  | nil => intro b hb _; exact hb
  | cons x t ih =>
    intro b hb hl
    exact ih (max b x) (max_lt hb (hl x (List.mem_cons_self x t)))
      (fun y hy => hl y (List.mem_cons.mpr (Or.inr hy)))

/-- C10: the computed `total_duration` equals the maximum of `0.0` and the
largest segment end, so it is never negative, and a sequence all of whose
segment ends are negative yields `0.0`. -/
theorem claim_C10_duration_clamped (segs : List Segment) :
    totalDuration segs = max 0 (maxSegmentEnd segs) ∧
    0 ≤ totalDuration segs ∧
    ((∀ s ∈ segs, segEnd s < 0) → totalDuration segs = 0) := by
  refine ⟨totalDuration_eq segs, ?_, ?_⟩
  · rw [totalDuration_eq segs]
    exact le_max_left 0 _
  · intro hneg
    rw [totalDuration_eq segs]
    cases segs with
    | nil => simp [maxSegmentEnd]
    | cons s rest =>
      have hends : ∀ x ∈ rest.map segEnd, x < 0 := by
        intro x hx
        obtain ⟨t, ht, rfl⟩ := List.mem_map.mp hx
        exact hneg t (List.mem_cons.mpr (Or.inr ht))
      have hmax : maxSegmentEnd (s :: rest) < 0 :=
        foldl_max_neg (rest.map segEnd) (segEnd s)
          (hneg s (List.mem_cons_self s rest)) hends
      exact max_eq_left (le_of_lt hmax)

/-- C10 (witness): the all-negative example computes to zero. -/
theorem claim_C10_witness : totalDuration negSegs = 0 :=
  (claim_C10_duration_clamped negSegs).2.2 (by
    intro s hs
    fin_cases hs
    norm_num [segEnd])

/-- Segment ends are non-negative for non-negative starts and durations. -/
theorem maxSegmentEnd_nonneg (segs : List Segment)
    (hnn : ∀ s ∈ segs, 0 ≤ s.start ∧ 0 ≤ s.duration) :
    0 ≤ maxSegmentEnd segs := by
  cases segs with
  | nil => exact le_refl 0
  | cons s rest =>
    have h0 : 0 ≤ segEnd s := by
      obtain ⟨h1, h2⟩ := hnn s (List.mem_cons_self s rest)
      exact add_nonneg h1 h2
    exact le_trans h0 (le_foldl_max (rest.map segEnd) (segEnd s))

/-- C5: for every collaborator-returned segment sequence (segments carrying
non-negative start offsets and durations, per the collaborator contract),
the response is a success whose `total_duration` is the maximum of
(start + duration) over all segments; the empty sequence yields a success
with captions the empty string and `total_duration` zero, not an error. -/
theorem claim_C5_total_duration (vid lang : List Char) (segs : List Segment)
    (hnn : ∀ s ∈ segs, 0 ≤ s.start ∧ 0 ≤ s.duration) :
    get_captions vid (FetchResult.ok segs lang) =
      HandlerResult.success ⟨vid, captionsText segs, lang, maxSegmentEnd segs⟩ ∧
    get_captions vid (FetchResult.ok [] lang) =
      HandlerResult.success ⟨vid, [], lang, 0⟩ := by
  constructor
  · have htd : totalDuration segs = maxSegmentEnd segs := by
      rw [totalDuration_eq segs]
      exact max_eq_right (maxSegmentEnd_nonneg segs hnn)
    rw [get_captions, htd]
  · rfl

/-- C5 (witness): the hello/world example of spec section 8 yields the
captions `hello world` and total duration `3`. -/
theorem claim_C5_witness :
    (∀ s ∈ exHelloSegs, 0 ≤ s.start ∧ 0 ≤ s.duration) ∧
    get_captions dqId (FetchResult.ok exHelloSegs ("en".data)) =
      HandlerResult.success ⟨dqId, ("hello world".data), ("en".data), 3⟩ := by
  have hnn : ∀ s ∈ exHelloSegs, 0 ≤ s.start ∧ 0 ≤ s.duration := by
    intro s hs
    fin_cases hs <;> exact ⟨by norm_num, by norm_num⟩
  refine ⟨hnn, ?_⟩
  have h := (claim_C5_total_duration dqId ("en".data) exHelloSegs hnn).1
  rw [h]
  have hcap : captionsText exHelloSegs = ("hello world".data) := by decide
  have hmax : maxSegmentEnd exHelloSegs = 3 := by
    simp only [maxSegmentEnd, exHelloSegs, segEnd, List.map_cons, List.map_nil,
      List.foldl_cons, List.foldl_nil]
    rw [max_eq_right (by norm_num : (0 : ℚ) + 1 ≤ 1 + 2)]
    norm_num
  rw [hcap, hmax]

/-- Every character of a prefix occurs in the list. -/
theorem isPrefixL_subset : ∀ p s : List Char, isPrefixL p s = true → ∀ a ∈ p, a ∈ s := by
  intro p
  induction p with
  | nil => intro s _ a ha; cases ha
  | cons x xs ih =>
    intro s hp a ha
    cases s with
    | nil => simp [isPrefixL] at hp
    | cons c cs =>
      rw [isPrefixL, Bool.and_eq_true, beq_iff_eq] at hp
      rcases List.mem_cons.mp ha with h | h
      · exact List.mem_cons.mpr (Or.inl (h.trans hp.1))
      · exact List.mem_cons.mpr (Or.inr (ih cs hp.2 a h))

/-- Every character of a contained substring occurs in the list. -/
theorem containsSub_subset :
    ∀ s pat : List Char, containsSub s pat = true → ∀ a ∈ pat, a ∈ s := by
  intro s
  induction s with
  | nil =>
    intro pat h a ha
    rw [containsSub, List.isEmpty_iff] at h
    subst h; cases ha
  | cons c t ih =>
    intro pat h a ha
    rw [containsSub, Bool.or_eq_true] at h
    rcases h with h' | h'
    · exact isPrefixL_subset pat (c :: t) h' a ha
    · exact List.mem_cons.mpr (Or.inr (ih pat h' a ha))

/-- A successful prefix test decomposes the list. -/
theorem isPrefixL_append :
    ∀ p s : List Char, isPrefixL p s = true → s = p ++ s.drop p.length := by
  intro p
  induction p with
  | nil => intro s _; simp
  | cons x xs ih =>
    intro s hp
    cases s with
    | nil => simp [isPrefixL] at hp
    | cons c cs =>
      rw [isPrefixL, Bool.and_eq_true, beq_iff_eq] at hp
      have := ih cs hp.2
      simp only [List.length_cons, List.drop_succ_cons, List.cons_append]
      exact hp.1 ▸ (by rw [← this])

/-- Characters kept by `takeWhile` satisfy the predicate. -/
theorem mem_takeWhile_pred :
    ∀ (l : List Char) (q : Char → Bool) (a : Char), a ∈ l.takeWhile q → q a = true := by
  intro l
  induction l with
  | nil => intro q a ha; cases ha
  | cons c t ih =>
    intro q a ha
    rw [List.takeWhile_cons] at ha
    by_cases hq : q c
    · simp only [hq, if_true] at ha
      rcases List.mem_cons.mp ha with h | h
      · exact h ▸ hq
      · exact ih q a h
    · simp [hq] at ha

/-- The first character surviving `dropWhile` refutes the predicate. -/
theorem head_dropWhile_not :
    ∀ (l : List Char) (q : Char → Bool) (a : Char),
      (l.dropWhile q).head? = some a → q a = false := by
  intro l
  induction l with
  | nil => intro q a ha; simp at ha
  | cons c t ih =>
    intro q a ha
    rw [List.dropWhile_cons] at ha
    cases hq : q c with
    | true =>
      rw [hq] at ha
      simp at ha
      exact ih q a ha
    | false =>
      rw [hq] at ha
      simp at ha
      exact ha ▸ hq

/-- Soundness of the `re.search` model: a captured group is a nonempty
maximal run of id characters standing immediately after an occurrence of the
literal pattern. -/
theorem searchCapture_sound (pat : List Char) :
    ∀ v g : List Char, searchCapture pat v = some g →
      ∃ pre post, v = pre ++ pat ++ g ++ post ∧ g ≠ [] ∧
        (∀ c ∈ g, isIdChar c = true) ∧
        (∀ c, post.head? = some c → isIdChar c = false) := by
  intro v
  induction v with
  | nil => intro g h; simp [searchCapture] at h
  | cons c t ih =>
    intro g h
    rw [searchCapture] at h
    split at h
    · next hcond =>
      rw [Bool.and_eq_true] at hcond
      obtain ⟨hpre, hrun⟩ := hcond
      have hg : g = ((c :: t).drop pat.length).takeWhile isIdChar :=
        (Option.some.injEq _ _).mp h.symm
      refine ⟨[], ((c :: t).drop pat.length).dropWhile isIdChar, ?_, ?_, ?_, ?_⟩
      · rw [hg]
        simp only [List.nil_append, List.append_assoc]
        rw [List.takeWhile_append_dropWhile]
        exact isPrefixL_append pat (c :: t) hpre
      · rw [hg]
        intro hnil
        rw [hnil] at hrun
        simp at hrun
      · intro a ha
        exact mem_takeWhile_pred _ isIdChar a (hg ▸ ha)
      · intro a ha
        exact head_dropWhile_not _ isIdChar a ha
    · next =>
      obtain ⟨pre, post, hv, hgne, hmem, hpost⟩ := ih g h
      exact ⟨c :: pre, post, by simp [hv], hgne, hmem, hpost⟩

/-- A negated Boolean test, read as falsity of the underlying test. -/
theorem bnot_true (b : Bool) : (!b) = true → b = false := by
  cases b <;> simp

/-- A negated Boolean test, read as truth of the underlying test. -/
theorem bnot_false (b : Bool) : (!b) = false → b = true := by
  cases b <;> simp

/-- Unfolding of the whitespace collapse at a whitespace head when already
inside a run. -/
theorem collapse_cons_ws_true (d : Char) (t : List Char) (hd : isWsChar d = true) :
    collapseWsAux true (d :: t) = collapseWsAux true t := by
  simp [collapseWsAux, hd]

/-- Unfolding of the whitespace collapse at a whitespace head when not
inside a run: one space is emitted. -/
theorem collapse_cons_ws_false (d : Char) (t : List Char) (hd : isWsChar d = true) :
    collapseWsAux false (d :: t) = ' ' :: collapseWsAux true t := by
  simp [collapseWsAux, hd]

/-- Unfolding of the whitespace collapse at a non-whitespace head. -/
theorem collapse_cons_nonws (b : Bool) (d : Char) (t : List Char)
    (hd : isWsChar d = false) :
    collapseWsAux b (d :: t) = d :: collapseWsAux false t := by
  simp [collapseWsAux, hd]

/-- Dropping trailing whitespace commutes with putting a non-whitespace
character in front. -/
theorem rstripWs_cons_nonws (c : Char) (y : List Char) (hc : isWsChar c = false) :
    rstripWs (c :: y) = c :: rstripWs y := by
  simp only [rstripWs, List.reverse_cons]
  rw [List.dropWhile_append]
  cases he : (y.reverse.dropWhile isWsChar).isEmpty with
  | true =>
    rw [List.isEmpty_iff] at he
    simp [he, List.dropWhile_cons, hc]
  | false =>
    simp [he, List.reverse_append]

/-- Dropping trailing whitespace after putting a whitespace character in
front: the character survives only when something non-whitespace follows. -/
theorem rstripWs_cons_ws (d : Char) (y : List Char) (hd : isWsChar d = true) :
    rstripWs (d :: y) = if rstripWs y = [] then [] else d :: rstripWs y := by
  simp only [rstripWs, List.reverse_cons]
  rw [List.dropWhile_append]
  cases he : (y.reverse.dropWhile isWsChar).isEmpty with
  | true =>
    rw [List.isEmpty_iff] at he
    simp [he, List.dropWhile_cons, hd]
  | false =>
    have hne : (y.reverse.dropWhile isWsChar).reverse ≠ [] := by
      intro h0
      rw [List.reverse_eq_nil_iff] at h0
      rw [h0] at he
      simp at he
    rw [if_neg hne]
    simp [he, List.reverse_append]

/-- Dropping trailing whitespace ignores a whitespace-free prefix. -/
theorem rstripWs_append_nonws :
    ∀ u y : List Char, (∀ a ∈ u, isWsChar a = false) →
      rstripWs (u ++ y) = u ++ rstripWs y := by
  intro u
  induction u with
  | nil => intro y _; rfl
  | cons a u' ih =>
    intro y hu
    rw [List.cons_append, rstripWs_cons_nonws a _ (hu a (List.mem_cons_self a u')),
      ih y (fun x hx => hu x (List.mem_cons.mpr (Or.inr hx)))]
    rfl

/-- The flag-true collapse ignores leading whitespace. -/
theorem collapse_true_dropWhile :
    ∀ s : List Char, collapseWsAux true s = collapseWsAux true (s.dropWhile isWsChar) := by
  intro s
  induction s with
  | nil => rfl
  | cons c t ih =>
    cases hc : isWsChar c with
    | true =>
      rw [collapse_cons_ws_true c t hc, List.dropWhile_cons, hc]
      simpa using ih
    | false =>
      rw [List.dropWhile_cons, hc]
      simp

/-- The collapse of a whitespace-free block is the block itself. -/
theorem collapse_false_word :
    ∀ w r : List Char, (∀ a ∈ w, isWsChar a = false) →
      collapseWsAux false (w ++ r) = w ++ collapseWsAux false r := by
  intro w
  induction w with
  | nil => intro r _; rfl
  | cons a w' ih =>
    intro r hw
    rw [List.cons_append,
      collapse_cons_nonws false a _ (hw a (List.mem_cons_self a w')),
      ih r (fun x hx => hw x (List.mem_cons.mpr (Or.inr hx)))]
    rfl

/-- Dropping leading whitespace from any collapse yields the flag-true
collapse: the output of `collapseWsAux` starts with at most one space. -/
theorem lstrip_collapse :
    ∀ (s : List Char) (b : Bool),
      (collapseWsAux b s).dropWhile isWsChar = collapseWsAux true s := by
  intro s
  induction s with
  | nil => intro b; rfl
  | cons c t ih =>
    intro b
    cases hc : isWsChar c with
    | true =>
      cases b with
      | true =>
        rw [collapse_cons_ws_true c t hc]
        exact ih true
      | false =>
        rw [collapse_cons_ws_false c t hc, collapse_cons_ws_true c t hc,
          List.dropWhile_cons]
        rw [show isWsChar ' ' = true from by decide]
        simpa using ih true
    | false =>
      rw [collapse_cons_nonws b c t hc, collapse_cons_nonws true c t hc,
        List.dropWhile_cons, hc]
      simp

/-- The plain-match unfolding equation of `splitWords`. -/
theorem splitWords_eq (s : List Char) :
    splitWords s =
      match s.dropWhile isWsChar with
      | [] => []
      | c :: t =>
          (c :: t.takeWhile (fun x => !isWsChar x)) ::
            splitWords (t.dropWhile (fun x => !isWsChar x)) := by
  rw [splitWords.eq_def]
  split
  · next heq =>
    rw [heq]
  · next c t heq =>
    rw [heq]

/-- The word list of the empty string is empty. -/
theorem splitWords_nil : splitWords ([] : List Char) = [] := by
  rw [splitWords_eq]
  rfl

/-- A leading whitespace character does not change the word list. -/
theorem splitWords_ws_cons (d : Char) (r : List Char) (hd : isWsChar d = true) :
    splitWords (d :: r) = splitWords r := by
  rw [splitWords_eq (d :: r), splitWords_eq r, List.dropWhile_cons, hd]
  simp

/-- No word produced by `splitWords` is empty. -/
theorem splitWords_ne_nil_fuel :
    ∀ (n : Nat) (s : List Char), s.length ≤ n → ∀ w ∈ splitWords s, w ≠ [] := by
  intro n
  induction n with
  | zero =>
    intro s hs
    have h0 : s = [] := List.length_eq_zero.mp (Nat.le_zero.mp hs)
    subst h0
    intro w hw
    rw [splitWords_nil] at hw
    cases hw
  | succ n ih =>
    intro s hs w hw
    rcases hd : s.dropWhile isWsChar with _ | ⟨c, t⟩
    · rw [splitWords_eq, hd] at hw
      cases hw
    · rw [splitWords_eq, hd] at hw
      have hw' : w ∈ (c :: t.takeWhile (fun x => !isWsChar x)) ::
          splitWords (t.dropWhile (fun x => !isWsChar x)) := hw
      rcases List.mem_cons.mp hw' with rfl | hmem
      · exact List.cons_ne_nil c _
      · apply ih (t.dropWhile (fun x => !isWsChar x)) ?_ w hmem
        have h1 : (s.dropWhile isWsChar).length ≤ s.length :=
          (List.dropWhile_sublist _).length_le
        rw [hd] at h1
        have h2 : (t.dropWhile fun x => !isWsChar x).length ≤ t.length :=
          (List.dropWhile_sublist _).length_le
        simp only [List.length_cons] at h1
        omega

/-- No word produced by `splitWords` is empty. -/
theorem splitWords_ne_nil (s : List Char) : ∀ w ∈ splitWords s, w ≠ [] :=
  splitWords_ne_nil_fuel s.length s (le_refl _)

/-- Joining a nonempty word list headed by a nonempty word is nonempty. -/
theorem joinSpace_cons_ne_nil (w : List Char) (rest : List (List Char))
    (hw : w ≠ []) : joinSpace (w :: rest) ≠ [] := by
  cases rest with
  | nil => simpa [joinSpace] using hw
  | cons u us =>
    rcases w with _ | ⟨a, w'⟩
    · exact absurd rfl hw
    · simp [joinSpace]

/-- Pulling the first character of the first word out of a space-join. -/
theorem joinSpace_cons_word (c : Char) (w : List Char) (rest : List (List Char)) :
    joinSpace ((c :: w) :: rest) = c :: joinSpace (w :: rest) := by
  cases rest <;> rfl

/-- The heart of the cleanup equivalence: right-stripping the flag-true
collapse of a string is the single-space join of its words. -/
theorem rstrip_collapse_eq_words :
    ∀ (n : Nat) (s : List Char), s.length ≤ n →
      rstripWs (collapseWsAux true s) = joinSpace (splitWords s) := by
  intro n
  induction n with
  | zero =>
    intro s hs
    have h0 : s = [] := List.length_eq_zero.mp (Nat.le_zero.mp hs)
    subst h0
    rw [splitWords_nil]
    rfl
  | succ n ih =>
    intro s hs
    rcases hd : s.dropWhile isWsChar with _ | ⟨c, t⟩
    · have h1 : collapseWsAux true s = [] := by
        rw [collapse_true_dropWhile s, hd]
        rfl
      have h2 : splitWords s = [] := by
        rw [splitWords_eq, hd]
      rw [h1, h2]
      rfl
    · have hc : isWsChar c = false :=
        head_dropWhile_not s isWsChar c (by rw [hd]; rfl)
      have hword : ∀ a ∈ t.takeWhile (fun x => !isWsChar x), isWsChar a = false :=
        fun a ha => bnot_true _ (mem_takeWhile_pred t _ a ha)
      have hsplit_t :
          t.takeWhile (fun x => !isWsChar x) ++ t.dropWhile (fun x => !isWsChar x) = t :=
        List.takeWhile_append_dropWhile (fun x => !isWsChar x) t
      have hsplit : splitWords s =
          (c :: t.takeWhile (fun x => !isWsChar x)) ::
            splitWords (t.dropWhile (fun x => !isWsChar x)) := by
        rw [splitWords_eq, hd]
      have hcollapse : collapseWsAux true s =
          (c :: t.takeWhile (fun x => !isWsChar x)) ++
            collapseWsAux false (t.dropWhile (fun x => !isWsChar x)) := by
        rw [collapse_true_dropWhile s, hd, collapse_cons_nonws true c t hc,
          List.cons_append]
        congr 1
        rw [← collapse_false_word _ _ hword, hsplit_t]
      have hnws : ∀ a ∈ c :: t.takeWhile (fun x => !isWsChar x), isWsChar a = false := by
        intro a ha
        rcases List.mem_cons.mp ha with rfl | ha'
        · exact hc
        · exact hword a ha'
      rw [hcollapse, hsplit, rstripWs_append_nonws _ _ hnws]
      rcases hr : t.dropWhile (fun x => !isWsChar x) with _ | ⟨d, r2⟩
      · rw [splitWords_nil,
          show collapseWsAux false ([] : List Char) = [] from rfl,
          show rstripWs ([] : List Char) = [] from rfl]
        simp [joinSpace]
      · have hdws : isWsChar d = true :=
          bnot_false _ (head_dropWhile_not t (fun x => !isWsChar x) d (by rw [hr]; rfl))
        have hlen : r2.length ≤ n := by
          have h1 : (s.dropWhile isWsChar).length ≤ s.length :=
            (List.dropWhile_sublist _).length_le
          rw [hd] at h1
          have h2 : (t.dropWhile fun x => !isWsChar x).length ≤ t.length :=
            (List.dropWhile_sublist _).length_le
          rw [hr] at h2
          simp only [List.length_cons] at h1 h2
          omega
        rw [collapse_cons_ws_false d r2 hdws,
          rstripWs_cons_ws ' ' _ (by decide),
          ih r2 hlen, splitWords_ws_cons d r2 hdws]
        rcases hjw : splitWords r2 with _ | ⟨w, ws2⟩
        · simp [joinSpace]
        · have hne : joinSpace (w :: ws2) ≠ [] :=
            joinSpace_cons_ne_nil w ws2
              (splitWords_ne_nil r2 w (by rw [hjw]; exact List.mem_cons_self w ws2))
          rw [if_neg hne]
          rfl

/-- The cleanup of src/main.py line 142 (collapse whitespace runs, then
strip) equals the single-space join of the whitespace-separated words. -/
theorem stripWs_collapseWs_eq_words (s : List Char) :
    stripWs (collapseWs s) = joinSpace (splitWords s) := by
  show rstripWs ((collapseWsAux false s).dropWhile isWsChar) = _
  rw [lstrip_collapse s false]
  exact rstrip_collapse_eq_words s.length s (le_refl _)

/-- C6: the captions field is the single-space join of the whitespace-free
words of the space-joined segment texts: every whitespace run of the joined
text is collapsed to exactly one space and no leading or trailing
whitespace remains.  In particular the hello/world segments produce
`hello world`, and segments with irregular whitespace split across segments
produce the same single-spaced string. -/
theorem claim_C6_whitespace_normalized :
    (∀ segs : List Segment,
      captionsText segs =
        joinSpace (splitWords (joinSpace (segs.map Segment.text)))) ∧
    captionsText exHelloSegs = ("hello world".data) ∧
    captionsText exIrregularSegs = ("hello world".data) := by
  refine ⟨?_, by decide, by decide⟩
  intro segs
  exact stripWs_collapseWs_eq_words (joinSpace (segs.map Segment.text))

/-- C6 (witness): the irregular-whitespace example evaluates to the
single-spaced, trimmed string. -/
theorem claim_C6_witness :
    captionsText exIrregularSegs = ("hello world".data) :=
  claim_C6_whitespace_normalized.2.2

/-- C7: every input consisting of exactly eleven characters of the alphabet
`[a-zA-Z0-9_-]` is accepted by the normalizer and returned unchanged: such
an input contains neither URL marker (both markers contain a dot, which is
not an id character), so the URL-extraction step keeps it, and it passes the
format check of src/main.py line 45. -/
theorem claim_C7_bare_id_unchanged (s : List Char)
    (h11 : s.length = 11) (hall : ∀ c ∈ s, isIdChar c = true) :
    validate_video_id s = ValidateResult.ok s := by
  have hdot : ('.' : Char) ∉ s := by
    intro hmem
    have := hall '.' hmem
    simp [isIdChar] at this
  have hw : containsSub s urlWatchLit = false := by
    cases hb : containsSub s urlWatchLit with
    | false => rfl
    | true => exact absurd (containsSub_subset s urlWatchLit hb '.' (by decide)) hdot
  have hs : containsSub s urlShortLit = false := by
    cases hb : containsSub s urlShortLit with
    | false => rfl
    | true => exact absurd (containsSub_subset s urlShortLit hb '.' (by decide)) hdot
  have htake : s.take 11 = s := List.take_of_length_le (le_of_eq h11)
  have hallb : s.all isIdChar = true := List.all_eq_true.mpr hall
  simp [validate_video_id, extract_id, hw, hs, matchId11, htake, hallb, h11]

/-- C7 (witness): the canonical eleven-character id passes unchanged. -/
theorem claim_C7_witness :
    dqId.length = 11 ∧ (∀ c ∈ dqId, isIdChar c = true) ∧
      validate_video_id dqId = ValidateResult.ok dqId :=
  ⟨by decide, by decide, claim_C7_bare_id_unchanged dqId (by decide) (by decide)⟩

/-- C8: when the input contains `youtube.com/watch?v=` and the search for
`v=([a-zA-Z0-9_-]+)` captures a group, the working value becomes that group,
a nonempty maximal run of id characters standing immediately after an
occurrence of `v=`; when the input instead contains `youtu.be/`, the same
holds for the run after `youtu.be/`; and the two URL examples of spec
section 8 both normalize to `dQw4w9WgXcQ`. -/
theorem claim_C8_url_extraction (v g : List Char) :
    ((containsSub v urlWatchLit = true → searchCapture patVLit v = some g →
        extract_id v = g ∧
        ∃ pre post, v = pre ++ patVLit ++ g ++ post ∧ g ≠ [] ∧
          (∀ c ∈ g, isIdChar c = true) ∧
          (∀ c, post.head? = some c → isIdChar c = false)) ∧
      (containsSub v urlWatchLit = false → containsSub v urlShortLit = true →
        searchCapture urlShortLit v = some g →
        extract_id v = g ∧
        ∃ pre post, v = pre ++ urlShortLit ++ g ++ post ∧ g ≠ [] ∧
          (∀ c ∈ g, isIdChar c = true) ∧
          (∀ c, post.head? = some c → isIdChar c = false))) ∧
    validate_video_id watchUrlEx = ValidateResult.ok dqId ∧
    validate_video_id shortUrlEx = ValidateResult.ok dqId := by
  refine ⟨⟨?_, ?_⟩, by decide, by decide⟩
  · intro hc hsearch
    exact ⟨by simp [extract_id, hc, hsearch], searchCapture_sound patVLit v g hsearch⟩
  · intro hw hc hsearch
    exact ⟨by simp [extract_id, hw, hc, hsearch],
      searchCapture_sound urlShortLit v g hsearch⟩

/-- C8 (witness): both spec URLs extract the captured id. -/
theorem claim_C8_witness :
    extract_id watchUrlEx = dqId ∧ extract_id shortUrlEx = dqId :=
  ⟨((claim_C8_url_extraction watchUrlEx dqId).1.1 (by decide) (by decide)).1,
   ((claim_C8_url_extraction shortUrlEx dqId).1.2 (by decide) (by decide) (by decide)).1⟩

/-- C1 (counterexample): a collaborator failure at the fetch stage carrying
the message `Video is private` is answered with status 404 and error code
`NO_TRANSCRIPT_AVAILABLE`, not with status 403 and error code
`VIDEO_PRIVATE` as the claim states: the fetch-stage handler of src/main.py
lines 115-124 catches every collaborator failure before the message
classification of lines 156-185 can see it. -/
theorem claim_C1_counterexample :
    resultStatus (get_captions dqId (FetchResult.err msgVideoIsPrivate)) = some 404 ∧
    resultErrorCode (get_captions dqId (FetchResult.err msgVideoIsPrivate)) =
      some codeNoTranscript ∧
    ¬ (resultStatus (get_captions dqId (FetchResult.err msgVideoIsPrivate)) = some 403 ∧
       resultErrorCode (get_captions dqId (FetchResult.err msgVideoIsPrivate)) =
         some codeVideoPrivate) := by
  decide

/-- C1 (amended): for every video id, a collaborator failure whose message
is `Video is private` yields the 404 `NO_TRANSCRIPT_AVAILABLE` error
response of src/main.py lines 117-124. -/
theorem claim_C1_amended (vid : List Char) :
    get_captions vid (FetchResult.err msgVideoIsPrivate) =
      HandlerResult.httpError 404 ⟨msgNoTranscript, codeNoTranscript, vid⟩ := rfl

/-- C2 (counterexample): the classification of src/main.py lines 156-185
does not send messages containing `not available` to `CAPTIONS_DISABLED`
(400), nor messages containing a bare `does not exist` to `VIDEO_NOT_FOUND`
(404); both fall through to `PROCESSING_ERROR` (500), refuting the claimed
trigger lists at the inputs `Transcripts not available` and
`this clip does not exist`. -/
theorem claim_C2_counterexample :
    classify_error dqId msgNotAvailEx =
      HandlerResult.httpError 500
        ⟨msgProcessingPre ++ msgNotAvailEx, codeProcessing, dqId⟩ ∧
    ¬ (resultStatus (classify_error dqId msgNotAvailEx) = some 400 ∧
       resultErrorCode (classify_error dqId msgNotAvailEx) = some codeCaptionsDisabled) ∧
    classify_error dqId msgDoesNotExistEx =
      HandlerResult.httpError 500
        ⟨msgProcessingPre ++ msgDoesNotExistEx, codeProcessing, dqId⟩ ∧
    ¬ (resultStatus (classify_error dqId msgDoesNotExistEx) = some 404 ∧
       resultErrorCode (classify_error dqId msgDoesNotExistEx) = some codeVideoNotFound) := by
  decide

/-- C2 (amended): the classification of src/main.py lines 156-185, applied
to any video id and failure message, is characterized by case-insensitive
substring tests in priority order: the 404 `VIDEO_NOT_FOUND` response is
produced exactly when the lowered message contains `video unavailable` or
`video does not exist`; the 403 `VIDEO_PRIVATE` response exactly when it
does not and the lowered message contains `private`; the 400
`CAPTIONS_DISABLED` response exactly when neither holds and the lowered
message contains `disabled`; and otherwise exactly the 500
`PROCESSING_ERROR` response carrying the original message verbatim after
`Error processing video: `. -/
theorem claim_C2_amended (vid msg : List Char) :
    (classify_error vid msg =
        HandlerResult.httpError 404 ⟨msgVideoNotFound, codeVideoNotFound, vid⟩ ↔
      (containsSub (lowerStr msg) litVideoUnavailable = true ∨
        containsSub (lowerStr msg) litVideoDoesNotExist = true)) ∧
    (classify_error vid msg =
        HandlerResult.httpError 403 ⟨msgVideoPrivate, codeVideoPrivate, vid⟩ ↔
      (¬ (containsSub (lowerStr msg) litVideoUnavailable = true ∨
          containsSub (lowerStr msg) litVideoDoesNotExist = true) ∧
        containsSub (lowerStr msg) litPrivate = true)) ∧
    (classify_error vid msg =
        HandlerResult.httpError 400 ⟨msgCaptionsDisabled, codeCaptionsDisabled, vid⟩ ↔
      (¬ (containsSub (lowerStr msg) litVideoUnavailable = true ∨
          containsSub (lowerStr msg) litVideoDoesNotExist = true) ∧
        ¬ containsSub (lowerStr msg) litPrivate = true ∧
        containsSub (lowerStr msg) litDisabled = true)) ∧
    (classify_error vid msg =
        HandlerResult.httpError 500 ⟨msgProcessingPre ++ msg, codeProcessing, vid⟩ ↔
      (¬ (containsSub (lowerStr msg) litVideoUnavailable = true ∨
          containsSub (lowerStr msg) litVideoDoesNotExist = true) ∧
        ¬ containsSub (lowerStr msg) litPrivate = true ∧
        ¬ containsSub (lowerStr msg) litDisabled = true)) := by
  cases h1 : containsSub (lowerStr msg) litVideoUnavailable <;>
    cases h2 : containsSub (lowerStr msg) litVideoDoesNotExist <;>
      cases h3 : containsSub (lowerStr msg) litPrivate <;>
        cases h4 : containsSub (lowerStr msg) litDisabled <;>
          simp [classify_error, h1, h2, h3, h4, msgVideoNotFound, msgVideoPrivate,
            msgCaptionsDisabled, codeVideoNotFound, codeVideoPrivate,
            codeCaptionsDisabled, codeProcessing]

/-- C2 (witness): a message containing no trigger substring is classified as
the catch-all `PROCESSING_ERROR` with status 500. -/
theorem claim_C2_witness :
    classify_error dqId ("boom".data) =
      HandlerResult.httpError 500
        ⟨msgProcessingPre ++ "boom".data, codeProcessing, dqId⟩ :=
  (claim_C2_amended dqId ("boom".data)).2.2.2.mpr (by decide)

/-- C3: every collaborator fetch failure, whatever its message, is answered
with status 404 and the `NO_TRANSCRIPT_AVAILABLE` error payload of
src/main.py lines 117-124. -/
theorem claim_C3_fetch_failure_catchall (vid msg : List Char) :
    get_captions vid (FetchResult.err msg) =
      HandlerResult.httpError 404 ⟨msgNoTranscript, codeNoTranscript, vid⟩ := rfl

/-- C4 (counterexample): at an input that fails the format validation the
two endpoints do not produce the same error response: the POST endpoint
rejects the request at body parsing, rendered with the framework-default
status 422, while the GET endpoint raises the same validation failure
inside the handler body (src/main.py line 193), whence it escapes uncaught
and is rendered as status 500. -/
theorem claim_C4_counterexample :
    post_get_captions ("not-a-valid-id!!".data) (FetchResult.ok [] ("en".data)) =
      EndpointResult.requestValidationError invalidIdMsg ∧
    get_captions_by_url ("not-a-valid-id!!".data) (FetchResult.ok [] ("en".data)) =
      EndpointResult.unhandledException invalidIdMsg ∧
    get_captions_by_url ("not-a-valid-id!!".data) (FetchResult.ok [] ("en".data)) ≠
      post_get_captions ("not-a-valid-id!!".data) (FetchResult.ok [] ("en".data)) ∧
    endpointStatus
        (post_get_captions ("not-a-valid-id!!".data) (FetchResult.ok [] ("en".data))) = 422 ∧
    endpointStatus
        (get_captions_by_url ("not-a-valid-id!!".data) (FetchResult.ok [] ("en".data))) = 500 := by
  decide

/-- C4 (amended): both endpoints run the same field validator on the raw
string.  Whenever validation succeeds, the GET endpoint produces exactly
the POST endpoint's outcome — the same normalization, the same fetch, and
on failure the same classified error response.  When validation fails,
both endpoints fail with the same `ValueError` message
`Invalid YouTube video ID format`, but the failure surfaces differently:
the POST endpoint as a request validation rejection before its handler
runs, the GET endpoint as an exception escaping its handler. -/
theorem claim_C4_amended (raw : List Char) (fetch : FetchResult) :
    (∀ vid, validate_video_id raw = ValidateResult.ok vid →
      get_captions_by_url raw fetch = post_get_captions raw fetch ∧
      get_captions_by_url raw fetch = EndpointResult.handled (get_captions vid fetch)) ∧
    (∀ m, validate_video_id raw = ValidateResult.invalid m →
      get_captions_by_url raw fetch = EndpointResult.unhandledException m ∧
      post_get_captions raw fetch = EndpointResult.requestValidationError m ∧
      m = invalidIdMsg) := by
  constructor
  · intro vid h
    constructor
    · simp [get_captions_by_url, post_get_captions, h]
    · simp [get_captions_by_url, h]
  · intro m h
    have hm : m = invalidIdMsg := by
      rw [validate_video_id] at h
      cases hc : matchId11 (extract_id raw) with
      | true => rw [hc] at h; simp at h
      | false => rw [hc] at h; simp at h; exact h.symm
    refine ⟨?_, ?_, hm⟩
    · simp [get_captions_by_url, h]
    · simp [post_get_captions, h]

/-- C4 (witness): at the canonical id and a concrete collaborator failure,
the GET endpoint coincides with the POST endpoint, by the amended
theorem. -/
theorem claim_C4_witness :
    get_captions_by_url dqId (FetchResult.err msgVideoIsPrivate) =
      post_get_captions dqId (FetchResult.err msgVideoIsPrivate) :=
  ((claim_C4_amended dqId (FetchResult.err msgVideoIsPrivate)).1 dqId (by decide)).1

/-- C9 (code evaluated at the failing input): the normalizer accepts the
twelve-character input of eleven id characters followed by a newline and
returns it unchanged, because the `$` of the Python pattern
`^[a-zA-Z0-9_-]{11}$` on src/main.py line 45 also matches just before a
trailing newline; the working value does not fully match the claimed
eleven-character format, yet no validation error is raised. -/
theorem claim_C9_failing_eval :
    validate_video_id newlineIdInput = ValidateResult.ok newlineIdInput ∧
    newlineIdInput.length = 12 ∧
    ¬ (newlineIdInput.length = 11 ∧ newlineIdInput.all isIdChar = true) := by
  decide

end YTCap
